import Mathlib

/-!
Verification of the AUSEC club task-and-membership tool (`src/apptest.py`).

The member sheet is embedded as a list of rows together with column-presence
flags.  `load_data_cached` (apptest.py lines 96-135) always supplies the six
standard columns (Name, Role, Password, Status, ApprovedBy, CreatedAt), so the
embedding keeps those fields on every row; the code nevertheless guards on the
presence of the Password / Status / Role columns inside `authenticate_user`
and on the optional Domain / ReportsTo columns inside `get_subordinates`, so
those five columns carry explicit presence flags.  The Google-Sheets persist
step (`update_members_sheet_optimized`) is an external adapter and is modelled
as always succeeding; SHA-256 (`hashlib.sha256(...).hexdigest()`) is an
external library call and is passed in as an explicit function parameter
`hash_password` wherever the source calls the module-level helper.
-/

namespace ClubTool

/-- One row of the Members sheet.  Fields mirror the expected columns of
`load_data_cached` plus the optional `Domain` and `ReportsTo` columns consulted
by `get_subordinates`. -/
structure Member where
  name : String
  role : String
  password : String
  status : String
  approvedBy : String
  createdAt : String
  domain : String
  reportsTo : String
deriving DecidableEq

instance : Inhabited Member := ⟨⟨"", "", "", "", "", "", "", ""⟩⟩

/-- A snapshot of the Members sheet: the rows in order, plus presence flags for
the columns the source code explicitly tests with `in members_df.columns`. -/
structure Directory where
  rows : List Member
  hasPassword : Bool
  hasStatus : Bool
  hasRole : Bool
  hasDomain : Bool
  hasReportsTo : Bool
deriving DecidableEq

/-- Result tuple of `authenticate_user`: `(success, username, role, message)`. -/
structure AuthResult where
  ok : Bool
  user : Option String
  role : Option String
  message : String
deriving DecidableEq

/-- `updateAt rows i f` is the embedding of `df.at[i, col] = v`: apply `f` to
the row at positional index `i`, leaving every other row unchanged. -/
def updateAt {α : Type} : List α → Nat → (α → α) → List α
  | [], _, _ => []
  | r :: rs, 0, f => f r :: rs
  | r :: rs, n + 1, f => r :: updateAt rs n f

/-- `find_index p rows` is the embedding of
`df[df["Name"] == x].index[0]`: the positional index of the first row
satisfying `p`, or `none` (an `IndexError` in the source, caught by the
surrounding `try`/`except`). -/
def find_index {α : Type} (p : α → Bool) : List α → Option Nat
  | [] => none
  | r :: rs => if p r then some 0 else (find_index p rs).map (· + 1)

theorem updateAt_get?_ne {α : Type} :
    ∀ (rows : List α) (i : Nat) (f : α → α) (j : Nat), j ≠ i →
      (updateAt rows i f).get? j = rows.get? j := by
  intro rows
  induction rows with
  | nil => intro i f j _; rfl
  | cons r rs ih =>
    intro i f j hne
    cases i with
    | zero =>
      cases j with
      | zero => exact absurd rfl hne
      | succ j => rfl
    | succ n =>
      cases j with
      | zero => rfl
      | succ j =>
        simp only [updateAt, List.get?]
        exact ih n f j (fun h => hne (by rw [h]))

theorem updateAt_get?_eq {α : Type} :
    ∀ (rows : List α) (i : Nat) (f : α → α),
      (updateAt rows i f).get? i = (rows.get? i).map f := by
  intro rows
  induction rows with
  | nil => intro i f; rfl
  | cons r rs ih =>
    intro i f
    cases i with
    | zero => rfl
    | succ n => simpa [updateAt, List.get?] using ih n f

theorem find_index_eq_none {α : Type} (p : α → Bool) :
    ∀ rows : List α, find_index p rows = none ↔ ∀ m ∈ rows, p m = false := by
  intro rows
  induction rows with
  | nil => simp [find_index]
  | cons r rs ih =>
    by_cases hr : p r = true
    · simp [find_index, hr]
    · have hr2 : p r = false := Bool.eq_false_iff.mpr hr
      simp [find_index, hr2, ih]

theorem find_index_some_get? {α : Type} (p : α → Bool) :
    ∀ (rows : List α) (i : Nat), find_index p rows = some i →
      ∃ m, rows.get? i = some m ∧ p m = true := by
  intro rows
  induction rows with
  | nil => intro i h; simp [find_index] at h
  | cons r rs ih =>
    intro i h
    simp only [find_index] at h
    by_cases hr : p r
    · simp only [hr, if_pos] at h
      cases h
      exact ⟨r, rfl, hr⟩
    · simp only [hr, if_neg, Bool.false_eq_true, if_false] at h
      rcases Option.map_eq_some.mp (by simpa [hr] using h) with ⟨j, hj, rfl⟩
      rcases ih j hj with ⟨m, hm, hp⟩
      exact ⟨m, hm, hp⟩

/-- Names pairwise distinct (the spec's "Name is unique" invariant) makes a
member determined by its name. -/
theorem eq_of_mem_of_name_eq {rows : List Member}
    (hn : (rows.map Member.name).Nodup) :
    ∀ a ∈ rows, ∀ b ∈ rows, a.name = b.name → a = b := by
  induction rows with
  | nil => intro a ha; cases ha
  | cons r rs ih =>
    simp only [List.map_cons, List.nodup_cons, List.mem_map] at hn
    intro a ha b hb hab
    rcases List.mem_cons.mp ha with ha1 | ha1 <;>
      rcases List.mem_cons.mp hb with hb1 | hb1
    · rw [ha1, hb1]
    · subst ha1
      exact absurd ⟨b, hb1, hab.symm⟩ hn.1
    · subst hb1
      exact absurd ⟨a, ha1, hab⟩ hn.1
    · exact ih hn.2 a ha1 b hb1 hab

/-- `get_subordinates` (apptest.py lines 158-216): the set of names the given
member may assign tasks to, keyed on the member's Role.  The optional Domain
and ReportsTo columns select the strict branches; every branch filters on
`Status == "Active"`. -/
def get_subordinates (member_name : String) (d : Directory) : List String :=
  if d.rows.isEmpty then []
  else
    match d.rows.find? (fun m => m.name == member_name) with
    | none => []
    | some m =>
      if m.role = "Dev" then
        (d.rows.filter (fun x => x.status == "Active")).map (fun x => x.name)
      else if m.role = "Core Head" then
        (d.rows.filter (fun x =>
          (x.role == "Domain Head" || x.role == "Core Head") &&
            x.status == "Active")).map (fun x => x.name)
      else if m.role = "Domain Head" then
        if d.hasDomain then
          (d.rows.filter (fun x =>
            x.role == "Associate Head" && x.domain == m.domain &&
              x.status == "Active")).map (fun x => x.name)
        else
          (d.rows.filter (fun x =>
            x.role == "Associate Head" && x.status == "Active")).map
            (fun x => x.name)
      else if m.role = "Associate Head" then
        if d.hasReportsTo then
          (d.rows.filter (fun x =>
            x.role == "Junior Head" && x.reportsTo == member_name &&
              x.status == "Active")).map (fun x => x.name)
        else
          (d.rows.filter (fun x =>
            x.role == "Junior Head" && x.status == "Active")).map
            (fun x => x.name)
      else []

/-- Members named by a status-filtered projection are Active members of the
sheet. -/
theorem mem_filter_map_name {rows : List Member} {p : Member → Bool} {x : String}
    (hp : ∀ m, p m = true → m.status = "Active")
    (h : x ∈ (rows.filter p).map (fun m => m.name)) :
    ∃ m ∈ rows, m.name = x ∧ m.status = "Active" := by
  rcases List.mem_map.mp h with ⟨m, hm, rfl⟩
  rcases List.mem_filter.mp hm with ⟨hmem, hpm⟩
  exact ⟨m, hmem, rfl, hp m hpm⟩

/-- The inline hash test of `authenticate_user` (line 242): the stored value
has 64 characters and, once lowercased, only hexadecimal digits.  Lowering the
whole string and testing each character equals lowering character by
character. -/
def is_sha256_hex (s : String) : Bool :=
  s.length == 64 &&
    s.data.all (fun c => "0123456789abcdef".data.contains c.toLower)

/-- The credential-comparison step of `authenticate_user` (lines 239-254).
`hash_password` stands for the external `hashlib.sha256(...).hexdigest()`
(lines 57-59); `user_role` is the effective role computed by the caller. -/
def password_check (hash_password : String → String)
    (username password user_role : String) (d : Directory) (m : Member) :
    AuthResult :=
  if d.hasPassword then
    let stored_password := m.password
    if is_sha256_hex stored_password then
      if hash_password password = stored_password then
        ⟨true, some username, some user_role, "Success"⟩
      else ⟨false, none, none, "Invalid credentials"⟩
    else
      if password = stored_password then
        ⟨true, some username, some user_role, "Success"⟩
      else ⟨false, none, none, "Invalid credentials"⟩
  else
    if password = "password123" then
      ⟨true, some username, some user_role, "Success"⟩
    else ⟨false, none, none, "Invalid credentials"⟩

/-- `authenticate_user` (apptest.py lines 218-254). -/
def authenticate_user (hash_password : String → String)
    (username password : String) (d : Directory) : AuthResult :=
  if d.rows.isEmpty then ⟨false, none, none, "No users found"⟩
  else
    match d.rows.find? (fun m => m.name == username) with
    | none => ⟨false, none, none, "User not found"⟩
    | some m =>
      let user_status := if d.hasStatus then m.status else "Active"
      let user_role := if d.hasRole then m.role else ""
      if user_role ≠ "Dev" ∧ user_status ≠ "Active" then
        if user_status = "Pending" then
          ⟨false, none, none, "Account pending approval"⟩
        else if user_status = "Suspended" then
          ⟨false, none, none, "Account suspended"⟩
        else ⟨false, none, none, "Account inactive"⟩
      else password_check hash_password username password user_role d m

/-- The success message chosen at the end of `register_user` (lines 291-298).
The inner `members_df.empty` test runs after the new row was appended, so its
`true` branch is dead code in the source; it is kept for fidelity. -/
def register_message (role : String) (rows : List Member) : String :=
  if role = "Dev" then
    if rows.isEmpty then "Dev registration successful! You can now log in."
    else "Dev registration submitted! Awaiting approval by the parent Dev."
  else "Registration successful! Your account is pending approval by a Dev."

/-- `register_user` (apptest.py lines 256-300).  The sheet write is modelled
as succeeding; the returned directory is the one persisted.  Appending via
`pd.DataFrame([new_user])` / `pd.concat` materialises the six standard
columns, hence the flag updates (pre-existing rows of a sheet that lacked one
of those columns would be filled with `NaN` by pandas; no claim depends on
those fill values, so row fields are left unchanged). -/
def register_user (hash_password : String → String)
    (name password role : String) (d : Directory) (now : String) :
    Bool × String × Directory :=
  let hashed_pw := hash_password password
  let initial : String × String :=
    if role = "Dev" then
      if d.rows.isEmpty then ("Active", "System") else ("Pending", "")
    else ("Pending", "")
  let new_user : Member :=
    { name := name, role := role, password := hashed_pw,
      status := initial.1, approvedBy := initial.2, createdAt := now,
      domain := "", reportsTo := "" }
  if d.rows.isEmpty then
    (true, register_message role [new_user],
     { rows := [new_user], hasPassword := true, hasStatus := true,
       hasRole := true, hasDomain := false, hasReportsTo := false })
  else if d.rows.any (fun m => m.name == name) then
    (false, "User already exists.", d)
  else
    (true, register_message role (d.rows ++ [new_user]),
     { d with rows := d.rows ++ [new_user], hasPassword := true,
              hasStatus := true, hasRole := true })

/-- `approve_user` (apptest.py lines 302-326).  A missing target raises
`IndexError` inside the `try`, caught and returned as a generic error; the
exception text is abbreviated here. -/
def approve_user (user_name : String) (d : Directory) (approver_name : String) :
    Bool × String × Directory :=
  match find_index (fun m => m.name == user_name) d.rows with
  | none => (false, "Error approving user: list index out of range", d)
  | some i =>
    let user_role := ((d.rows.get? i).getD default).role
    if user_role = "Dev" then
      match d.rows.find? (fun x => x.role == "Dev" && x.approvedBy == "System") with
      | some parent_dev =>
        if approver_name = parent_dev.name then
          (true, "User " ++ user_name ++ " approved successfully!",
           { d with rows := updateAt d.rows i (fun m =>
               { m with status := "Active", approvedBy := approver_name }) })
        else (false, "Only the parent Dev can approve new Devs.", d)
      | none => (false, "Only the parent Dev can approve new Devs.", d)
    else
      (true, "User " ++ user_name ++ " approved successfully!",
       { d with rows := updateAt d.rows i (fun m =>
           { m with status := "Active", approvedBy := approver_name }) })

/-- `suspend_user` (apptest.py lines 328-339). -/
def suspend_user (user_name : String) (d : Directory) :
    Bool × String × Directory :=
  match find_index (fun m => m.name == user_name) d.rows with
  | none => (false, "Error suspending user: list index out of range", d)
  | some i =>
    (true, "User " ++ user_name ++ " suspended successfully!",
     { d with rows := updateAt d.rows i (fun m => { m with status := "Suspended" }) })

/-- `reactivate_user` (apptest.py lines 341-352). -/
def reactivate_user (user_name : String) (d : Directory) :
    Bool × String × Directory :=
  match find_index (fun m => m.name == user_name) d.rows with
  | none => (false, "Error reactivating user: list index out of range", d)
  | some i =>
    (true, "User " ++ user_name ++ " reactivated successfully!",
     { d with rows := updateAt d.rows i (fun m => { m with status := "Active" }) })

/-- `delete_user` (apptest.py lines 354-364): keeps every row whose Name
differs from the target.  Note there is no existence check. -/
def delete_user (user_name : String) (d : Directory) :
    Bool × String × Directory :=
  (true, "User " ++ user_name ++ " deleted successfully!",
   { d with rows := d.rows.filter (fun m => !(m.name == user_name)) })

/-- `update_user_role` (apptest.py lines 366-377). -/
def update_user_role (user_name new_role : String) (d : Directory) :
    Bool × String × Directory :=
  match find_index (fun m => m.name == user_name) d.rows with
  | none => (false, "Error updating user role: list index out of range", d)
  | some i =>
    (true, "User " ++ user_name ++ "'s role updated to " ++ new_role ++ "!",
     { d with rows := updateAt d.rows i (fun m => { m with role := new_role }) })

/-- The `while True` resampling loop of `generate_unique_taskid`
(lines 384-387).  `s` is the stream of draws of the external
`random.randint(100000, 999999)`, modelled as `100000 + s k % 900000`; `fuel`
bounds the number of draws, `none` standing for a run that has not terminated
within the bound. -/
def generate_loop (existing_ids : List Nat) : (Nat → Nat) → Nat → Option Nat
  | _, 0 => none
  | s, fuel + 1 =>
    let new_id := 100000 + s 0 % 900000
    if existing_ids.contains new_id then
      generate_loop existing_ids (fun k => s (k + 1)) fuel
    else some new_id

/-- `generate_unique_taskid` (apptest.py lines 379-387).  `existing_ids` is
the numeric coercion of the TaskID column (`pd.to_numeric(...).dropna()`); an
empty or TaskID-less task sheet yields the empty list and takes the early
single-draw return. -/
def generate_unique_taskid (s : Nat → Nat) (fuel : Nat)
    (existing_ids : List Nat) : Option Nat :=
  if existing_ids.isEmpty then some (100000 + s 0 % 900000)
  else generate_loop existing_ids s fuel

/-- Repeated calls of `generate_unique_taskid`, one entropy stream per call,
accumulating each returned ID into the existing set before the next call (the
spec's repeated-call scenario); a call running out of fuel stops the run. -/
def generate_accumulate (fuel : Nat) :
    List (Nat → Nat) → List Nat → List Nat
  | [], _ => []
  | s :: rest, existing_ids =>
    match generate_unique_taskid s fuel existing_ids with
    | none => []
    | some new_id => new_id :: generate_accumulate fuel rest (new_id :: existing_ids)

/-- The directory produced by `load_data_cached` for an empty Members sheet:
no rows, the six standard columns, no Domain or ReportsTo column. -/
def emptyDirectory : Directory :=
  { rows := [], hasPassword := true, hasStatus := true, hasRole := true,
    hasDomain := false, hasReportsTo := false }

/-- A directory holding a single Active Dev named "A". -/
def dirDevOnly : Directory :=
  { rows := [⟨"A", "Dev", "pw", "Active", "System", "t0", "", ""⟩],
    hasPassword := true, hasStatus := true, hasRole := true,
    hasDomain := false, hasReportsTo := false }

/-- A directory holding a single Active Core Head named "A" and no Dev. -/
def dirOneCore : Directory :=
  { rows := [⟨"A", "Core Head", "pw", "Active", "D", "t0", "", ""⟩],
    hasPassword := true, hasStatus := true, hasRole := true,
    hasDomain := false, hasReportsTo := false }

/-- A directory holding a single Active Junior Head named "J". -/
def dirJuniorOnly : Directory :=
  { rows := [⟨"J", "Junior Head", "pw", "Active", "A", "t0", "", ""⟩],
    hasPassword := true, hasStatus := true, hasRole := true,
    hasDomain := false, hasReportsTo := false }

/-- Claim C1, counterexample: an Active Dev requester appears in their own
subordinate list even though the role "Dev" is not one of the roles matched by
the Core Head rule, so the claimed self-exclusion fails. -/
theorem c1_subordinates_cex :
    "A" ∈ get_subordinates "A" dirDevOnly ∧
    (dirDevOnly.rows.find? (fun m => m.name == "A")).map Member.role =
      some "Dev" ∧
    ("Dev" : String) ∉ ["Domain Head", "Core Head"] := by
  decide

/-- Claim C1 (amended): `get_subordinates` returns only names of Active
members, and — under the Name-uniqueness invariant — the requester's own name
is excluded unless the requester's role is Core Head or Dev. -/
theorem c1_subordinates_active :
    ∀ (n : String) (d : Directory),
      (∀ x ∈ get_subordinates n d,
        ∃ m ∈ d.rows, m.name = x ∧ m.status = "Active") ∧
      ((d.rows.map Member.name).Nodup →
        ∀ m, d.rows.find? (fun x => x.name == n) = some m →
          m.role ≠ "Dev" → m.role ≠ "Core Head" →
          n ∉ get_subordinates n d) := by
  intro n d
  constructor
  · intro x hx
    unfold get_subordinates at hx
    split at hx
    · cases hx
    · split at hx
      · cases hx
      · rename_i m hfind
        split_ifs at hx with h1 h2 h3 h4 h5 h6 <;>
          first
          | cases hx
          | exact mem_filter_map_name
              (fun mm hmm => by simp at hmm; tauto) hx
  · intro hnodup m hfind h1 h2 hx
    have hm_mem : m ∈ d.rows := List.mem_of_find?_eq_some hfind
    have hm_name : m.name = n := by simpa using List.find?_some hfind
    unfold get_subordinates at hx
    split at hx
    · cases hx
    · split at hx
      · cases hx
      · rename_i m2 hfind2
        rw [hfind] at hfind2
        injection hfind2 with hm2
        subst hm2
        split_ifs at hx <;>
          first
          | cases hx
          | exact h1 (by assumption)
          | exact h2 (by assumption)
          | (rcases List.mem_map.mp hx with ⟨m3, hm3, hname3⟩
             rcases List.mem_filter.mp hm3 with ⟨hmem3, hp3⟩
             have heq : m3 = m :=
               eq_of_mem_of_name_eq hnodup m3 hmem3 m hm_mem
                 (hname3.trans hm_name.symm)
             subst heq
             simp_all)
theorem c1_subordinates_active_witness :
    (∃ m ∈ dirOneCore.rows, m.name = "A" ∧ m.status = "Active") ∧
    "J" ∉ get_subordinates "J" dirJuniorOnly :=
  ⟨(c1_subordinates_active "A" dirOneCore).1 "A" (by decide),
   (c1_subordinates_active "J" dirJuniorOnly).2 (by decide)
     ⟨"J", "Junior Head", "pw", "Active", "A", "t0", "", ""⟩ (by decide)
     (by decide) (by decide)⟩

/-- Claim C8: `get_subordinates` is total (it is a plain function here, with
every failure path of the source's `try`/`except` returning `[]`), and it
returns the empty list for an empty directory, for a requester name that is
absent, and for a Junior Head requester. -/
theorem c8_subordinates_total :
    ∀ (n : String) (d : Directory),
      (d.rows = [] → get_subordinates n d = []) ∧
      ((∀ m ∈ d.rows, m.name ≠ n) → get_subordinates n d = []) ∧
      (∀ m, d.rows.find? (fun x => x.name == n) = some m →
        m.role = "Junior Head" → get_subordinates n d = []) := by
  intro n d
  refine ⟨?_, ?_, ?_⟩
  · intro h
    simp [get_subordinates, h]
  · intro h
    have hf : d.rows.find? (fun x => x.name == n) = none :=
      List.find?_eq_none.mpr (fun x hx => by simpa using h x hx)
    unfold get_subordinates
    split
    · rfl
    · rw [hf]
  · intro m hf hr
    unfold get_subordinates
    split
    · rfl
    · rw [hf]
      simp [hr]

theorem c8_subordinates_total_witness :
    get_subordinates "X" emptyDirectory = [] ∧
    get_subordinates "Ghost" dirOneCore = [] ∧
    get_subordinates "J" dirJuniorOnly = [] :=
  ⟨(c8_subordinates_total "X" emptyDirectory).1 rfl,
   (c8_subordinates_total "Ghost" dirOneCore).2.1 (by decide),
   (c8_subordinates_total "J" dirJuniorOnly).2.2
     ⟨"J", "Junior Head", "pw", "Active", "A", "t0", "", ""⟩ (by decide) rfl⟩

theorem isEmpty_false_of_find?_some {α : Type} {l : List α} {p : α → Bool}
    {a : α} (h : l.find? p = some a) : l.isEmpty = false := by
  cases l with
  | nil => simp [List.find?] at h
  | cons x xs => rfl

/-- Unfolding `authenticate_user` once a member row has been found. -/
theorem authenticate_found (hf : String → String) (u p : String)
    (d : Directory) (m : Member)
    (hfind : d.rows.find? (fun x => x.name == u) = some m) :
    authenticate_user hf u p d =
      if (if d.hasRole then m.role else "") ≠ "Dev" ∧
          (if d.hasStatus then m.status else "Active") ≠ "Active" then
        if (if d.hasStatus then m.status else "Active") = "Pending" then
          ⟨false, none, none, "Account pending approval"⟩
        else if (if d.hasStatus then m.status else "Active") = "Suspended" then
          ⟨false, none, none, "Account suspended"⟩
        else ⟨false, none, none, "Account inactive"⟩
      else password_check hf u p (if d.hasRole then m.role else "") d m := by
  simp only [authenticate_user, isEmpty_false_of_find?_some hfind,
    Bool.false_eq_true, if_false, hfind]

/-- A member that passes the Active-status gate (Dev role, or effective
status Active) reaches the credential comparison unchanged. -/
theorem authenticate_gate_pass (hf : String → String) (u p : String)
    (d : Directory) (m : Member)
    (hfind : d.rows.find? (fun x => x.name == u) = some m)
    (hgate : (if d.hasRole then m.role else "") = "Dev" ∨
      (if d.hasStatus then m.status else "Active") = "Active") :
    authenticate_user hf u p d =
      password_check hf u p (if d.hasRole then m.role else "") d m := by
  rw [authenticate_found hf u p d m hfind]
  have hng : ¬((if d.hasRole then m.role else "") ≠ "Dev" ∧
      (if d.hasStatus then m.status else "Active") ≠ "Active") := by
    rcases hgate with h | h
    · exact fun hc => hc.1 h
    · exact fun hc => hc.2 h
  rw [if_neg hng]

/-- Claim C2: `authenticate_user` evaluates its policy in order — empty sheet,
unknown name, then the status gate keyed to the stored Status, which a Dev
bypasses entirely (for a Dev the result is exactly the credential
comparison, whatever the Status). -/
theorem c2_authenticate_order :
    (∀ (hf : String → String) (u p : String) (d : Directory),
        d.rows = [] →
        authenticate_user hf u p d = ⟨false, none, none, "No users found"⟩) ∧
    (∀ (hf : String → String) (u p : String) (d : Directory),
        d.rows ≠ [] → (∀ m ∈ d.rows, m.name ≠ u) →
        authenticate_user hf u p d = ⟨false, none, none, "User not found"⟩) ∧
    (∀ (hf : String → String) (u p : String) (d : Directory) (m : Member),
        d.rows.find? (fun x => x.name == u) = some m →
        d.hasRole = true → d.hasStatus = true →
        m.role ≠ "Dev" → m.status ≠ "Active" →
        authenticate_user hf u p d =
          ⟨false, none, none,
            if m.status = "Pending" then "Account pending approval"
            else if m.status = "Suspended" then "Account suspended"
            else "Account inactive"⟩) ∧
    (∀ (hf : String → String) (u p : String) (d : Directory) (m : Member),
        d.rows.find? (fun x => x.name == u) = some m →
        d.hasRole = true → m.role = "Dev" →
        authenticate_user hf u p d = password_check hf u p "Dev" d m) := by
  refine ⟨?_, ?_, ?_, ?_⟩
  · intro hf u p d h
    simp [authenticate_user, h]
  · intro hf u p d hne h
    have hempty : d.rows.isEmpty = false := by
      cases hr : d.rows with
      | nil => exact absurd hr hne
      | cons a l => rfl
    have hfind : d.rows.find? (fun x => x.name == u) = none :=
      List.find?_eq_none.mpr (fun x hx => by simpa using h x hx)
    simp [authenticate_user, hempty, hfind]
  · intro hf u p d m hfind hrole hstatus hdev hact
    rw [authenticate_found hf u p d m hfind]
    rw [hrole, hstatus]
    simp only [if_true]
    rw [if_pos ⟨hdev, hact⟩]
    split_ifs <;> rfl
  · intro hf u p d m hfind hrole hdev
    have := authenticate_gate_pass hf u p d m hfind
      (Or.inl (by rw [hrole]; simpa using hdev))
    rwa [hrole, if_pos rfl, hdev] at this

/-- A directory holding a single Pending Core Head named "P". -/
def dirPendingCore : Directory :=
  { rows := [⟨"P", "Core Head", "pw", "Pending", "", "t0", "", ""⟩],
    hasPassword := true, hasStatus := true, hasRole := true,
    hasDomain := false, hasReportsTo := false }

/-- A directory holding a single Suspended Dev named "D". -/
def dirSuspendedDev : Directory :=
  { rows := [⟨"D", "Dev", "secret", "Suspended", "System", "t0", "", ""⟩],
    hasPassword := true, hasStatus := true, hasRole := true,
    hasDomain := false, hasReportsTo := false }

theorem c2_authenticate_order_witness :
    authenticate_user (fun _ => "") "A" "x" emptyDirectory =
      ⟨false, none, none, "No users found"⟩ ∧
    authenticate_user (fun _ => "") "Ghost" "x" dirOneCore =
      ⟨false, none, none, "User not found"⟩ ∧
    authenticate_user (fun _ => "") "P" "x" dirPendingCore =
      ⟨false, none, none, "Account pending approval"⟩ ∧
    authenticate_user (fun _ => "") "D" "x" dirSuspendedDev =
      password_check (fun _ => "") "D" "x" "Dev" dirSuspendedDev
        ⟨"D", "Dev", "secret", "Suspended", "System", "t0", "", ""⟩ := by
  refine ⟨c2_authenticate_order.1 (fun _ => "") "A" "x" emptyDirectory rfl,
    c2_authenticate_order.2.1 (fun _ => "") "Ghost" "x" dirOneCore
      (by decide) (by decide), ?_, ?_⟩
  · have h := c2_authenticate_order.2.2.1 (fun _ => "") "P" "x" dirPendingCore
      ⟨"P", "Core Head", "pw", "Pending", "", "t0", "", ""⟩
      (by decide) rfl rfl (by decide) (by decide)
    simpa using h
  · exact c2_authenticate_order.2.2.2 (fun _ => "") "D" "x" dirSuspendedDev
      ⟨"D", "Dev", "secret", "Suspended", "System", "t0", "", ""⟩
      (by decide) rfl rfl

/-- A 64-character lowercase-hex string standing in for a SHA-256 digest. -/
def hash64 : String := String.mk (List.replicate 64 'a')

/-- An Active Core Head whose stored credential is a 64-hex-char hash. -/
def memHashed : Member := ⟨"H", "Core Head", hash64, "Active", "A", "t0", "", ""⟩

/-- A directory holding just `memHashed`. -/
def dirHashed : Directory :=
  { rows := [memHashed], hasPassword := true, hasStatus := true,
    hasRole := true, hasDomain := false, hasReportsTo := false }

/-- A directory whose sheet has no Password column. -/
def dirNoPassword : Directory :=
  { rows := [⟨"P", "Core Head", "", "Active", "A", "t0", "", ""⟩],
    hasPassword := false, hasStatus := true, hasRole := true,
    hasDomain := false, hasReportsTo := false }

/-- Claim C3: for a member past the status gate, success is governed by the
shape of the stored credential — hash comparison for a 64-hex-char value,
plaintext equality otherwise, and the hardcoded "password123" when the sheet
has no Password column. -/
theorem c3_password_policy :
    ∀ (hf : String → String) (u p : String) (d : Directory) (m : Member),
      d.rows.find? (fun x => x.name == u) = some m →
      ((if d.hasRole then m.role else "") = "Dev" ∨
        (if d.hasStatus then m.status else "Active") = "Active") →
      ((d.hasPassword = true → is_sha256_hex m.password = true →
          ((authenticate_user hf u p d).ok = true ↔ hf p = m.password)) ∧
       (d.hasPassword = true → is_sha256_hex m.password = false →
          ((authenticate_user hf u p d).ok = true ↔ p = m.password)) ∧
       (d.hasPassword = false →
          ((authenticate_user hf u p d).ok = true ↔ p = "password123"))) := by
  intro hf u p d m hfind hgate
  rw [authenticate_gate_pass hf u p d m hfind hgate]
  refine ⟨?_, ?_, ?_⟩
  · intro hpw hhex
    simp only [password_check, hpw, if_true, hhex]
    by_cases h : hf p = m.password
    · simp [h]
    · rw [if_neg h]
      exact ⟨fun hc => absurd hc (by simp), fun hc => absurd hc h⟩
  · intro hpw hhex
    simp only [password_check, hpw, if_true, hhex, Bool.false_eq_true, if_false]
    by_cases h : p = m.password
    · simp [h]
    · rw [if_neg h]
      exact ⟨fun hc => absurd hc (by simp), fun hc => absurd hc h⟩
  · intro hpw
    simp only [password_check, hpw, Bool.false_eq_true, if_false]
    by_cases h : p = "password123"
    · simp [h]
    · rw [if_neg h]
      exact ⟨fun hc => absurd hc (by simp), fun hc => absurd hc h⟩

theorem c3_password_policy_witness :
    ((authenticate_user (fun _ => hash64) "H" "x" dirHashed).ok = true ↔
      hash64 = memHashed.password) ∧
    ((authenticate_user (fun _ => hash64) "A" "pw" dirOneCore).ok = true ↔
      ("pw" : String) = Member.password ⟨"A", "Core Head", "pw", "Active", "D", "t0", "", ""⟩) ∧
    ((authenticate_user (fun _ => hash64) "P" "q" dirNoPassword).ok = true ↔
      ("q" : String) = "password123") :=
  ⟨(c3_password_policy (fun _ => hash64) "H" "x" dirHashed memHashed
      (by decide) (Or.inr (by decide))).1 rfl (by decide),
   (c3_password_policy (fun _ => hash64) "A" "pw" dirOneCore
      ⟨"A", "Core Head", "pw", "Active", "D", "t0", "", ""⟩
      (by decide) (Or.inr (by decide))).2.1 rfl (by decide),
   (c3_password_policy (fun _ => hash64) "P" "q" dirNoPassword
      ⟨"P", "Core Head", "", "Active", "A", "t0", "", ""⟩
      (by decide) (Or.inr (by decide))).2.2 rfl⟩

/-- Claim C9: a Dev with any non-Active status — Suspended included — who
supplies the matching credential authenticates successfully; the status field
plays no part at all for a Dev. -/
theorem c9_dev_bypass :
    ∀ (hf : String → String) (u p : String) (d : Directory) (m : Member),
      d.rows.find? (fun x => x.name == u) = some m →
      d.hasRole = true → m.role = "Dev" → d.hasPassword = true →
      cond (is_sha256_hex m.password) (hf p) p = m.password →
      authenticate_user hf u p d = ⟨true, some u, some "Dev", "Success"⟩ := by
  intro hf u p d m hfind hrole hdev hpw hcred
  have h := authenticate_gate_pass hf u p d m hfind
    (Or.inl (by rw [hrole]; simpa using hdev))
  rw [hrole, if_pos rfl, hdev] at h
  rw [h]
  cases hb : is_sha256_hex m.password with
  | false =>
    have hp : p = m.password := by simpa [hb] using hcred
    simp [password_check, hpw, hb, hp]
  | true =>
    have hp : hf p = m.password := by simpa [hb] using hcred
    simp [password_check, hpw, hb, hp]

theorem c9_dev_bypass_witness :
    authenticate_user (fun s => s) "D" "secret" dirSuspendedDev =
      ⟨true, some "D", some "Dev", "Success"⟩ :=
  c9_dev_bypass (fun s => s) "D" "secret" dirSuspendedDev
    ⟨"D", "Dev", "secret", "Suspended", "System", "t0", "", ""⟩
    (by decide) rfl rfl rfl (by decide)

/-- Claim C10: registering a Dev into an empty directory stores the hash of
the password (a 64-hex-char string), and logging in with that password then
takes the hash-comparison branch and succeeds with role "Dev". -/
theorem c10_register_login_roundtrip :
    ∀ (hf : String → String) (n p now : String),
      is_sha256_hex (hf p) = true →
      (register_user hf n p "Dev" emptyDirectory now).1 = true ∧
      authenticate_user hf n p
          (register_user hf n p "Dev" emptyDirectory now).2.2 =
        ⟨true, some n, some "Dev", "Success"⟩ := by
  intro hf n p now hhex
  have hreg : register_user hf n p "Dev" emptyDirectory now =
      (true, "Dev registration submitted! Awaiting approval by the parent Dev.",
       { rows := [⟨n, "Dev", hf p, "Active", "System", now, "", ""⟩],
         hasPassword := true, hasStatus := true, hasRole := true,
         hasDomain := false, hasReportsTo := false }) := by
    simp [register_user, emptyDirectory, register_message]
  rw [hreg]
  refine ⟨rfl, ?_⟩
  have hfind :
      ([⟨n, "Dev", hf p, "Active", "System", now, "", ""⟩] :
          List Member).find? (fun x => x.name == n) =
        some ⟨n, "Dev", hf p, "Active", "System", now, "", ""⟩ := by
    simp [List.find?]
  rw [authenticate_gate_pass hf n p _ _ hfind (Or.inl (by simp))]
  simp [password_check, hhex]

theorem c10_register_login_roundtrip_witness :
    (register_user (fun _ => hash64) "A" "pw" "Dev" emptyDirectory "t").1 =
      true ∧
    authenticate_user (fun _ => hash64) "A" "pw"
        (register_user (fun _ => hash64) "A" "pw" "Dev" emptyDirectory "t").2.2 =
      ⟨true, some "A", some "Dev", "Success"⟩ :=
  c10_register_login_roundtrip (fun _ => hash64) "A" "pw" "t" (by decide)

/-- Claim C4, counterexample: registering a Dev into a non-empty directory
containing no Dev at all — so this is the first Dev ever created — stores it
with Status "Pending" and empty ApprovedBy, because the bootstrap branch of
`register_user` tests emptiness of the whole sheet, not first-Dev-ness. -/
theorem c4_register_cex :
    dirOneCore.rows.all (fun m => !(m.role == "Dev")) = true ∧
    (register_user (fun _ => "HH") "B" "pw" "Dev" dirOneCore "t").1 = true ∧
    ((register_user (fun _ => "HH") "B" "pw" "Dev" dirOneCore "t").2.2.rows.find?
        (fun m => m.name == "B")).map (fun m => (m.status, m.approvedBy)) =
      some ("Pending", "") :=
  ⟨rfl, rfl, rfl⟩

/-- Claim C4 (amended): `register_user` fails on a duplicate name in a
non-empty directory; a Dev registered into an *empty* directory is stored
Active/"System"; a Dev registered into any non-empty directory (even one that
contains no Dev yet) and every non-Dev registration are stored Pending with
empty ApprovedBy. -/
theorem c4_register_bootstrap :
    ∀ (hf : String → String) (n p role now : String) (d : Directory),
      (d.rows ≠ [] → (∃ m ∈ d.rows, m.name = n) →
        register_user hf n p role d now = (false, "User already exists.", d)) ∧
      (role = "Dev" → d.rows = [] →
        (register_user hf n p role d now).1 = true ∧
        (register_user hf n p role d now).2.2.rows =
          [⟨n, "Dev", hf p, "Active", "System", now, "", ""⟩]) ∧
      (role = "Dev" → d.rows ≠ [] → (∀ m ∈ d.rows, m.name ≠ n) →
        (register_user hf n p role d now).1 = true ∧
        (register_user hf n p role d now).2.2.rows =
          d.rows ++ [⟨n, "Dev", hf p, "Pending", "", now, "", ""⟩]) ∧
      (role ≠ "Dev" → (∀ m ∈ d.rows, m.name ≠ n) →
        (register_user hf n p role d now).1 = true ∧
        (register_user hf n p role d now).2.2.rows =
          d.rows ++ [⟨n, role, hf p, "Pending", "", now, "", ""⟩]) := by
  intro hf n p role now d
  refine ⟨?_, ?_, ?_, ?_⟩
  · intro hne hex
    have hempty : d.rows.isEmpty = false := by
      cases hr : d.rows with
      | nil => exact absurd hr hne
      | cons x xs => rfl
    have hany : d.rows.any (fun m => m.name == n) = true := by
      rcases hex with ⟨m, hm, he⟩
      exact List.any_eq_true.mpr ⟨m, hm, by simpa using he⟩
    simp [register_user, hempty, hany]
  · intro hrole hnil
    subst hrole
    simp [register_user, hnil]
  · intro hrole hne hnm
    subst hrole
    have hempty : d.rows.isEmpty = false := by
      cases hr : d.rows with
      | nil => exact absurd hr hne
      | cons x xs => rfl
    have hany : d.rows.any (fun m => m.name == n) = false := by
      rw [Bool.eq_false_iff]
      intro hc
      rcases List.any_eq_true.mp hc with ⟨m, hm, he⟩
      exact hnm m hm (by simpa using he)
    simp [register_user, hempty, hany]
  · intro hrole hnm
    cases hr : d.rows with
    | nil =>
      simp [register_user, hr, hrole]
    | cons x xs =>
      have hempty : d.rows.isEmpty = false := by rw [hr]; rfl
      have hany : d.rows.any (fun m => m.name == n) = false := by
        rw [Bool.eq_false_iff]
        intro hc
        rcases List.any_eq_true.mp hc with ⟨m, hm, he⟩
        exact hnm m hm (by simpa using he)
      simp only [register_user, hempty, hany, hrole, Bool.false_eq_true,
        if_false]
      exact ⟨trivial, by simp [hr]⟩

theorem c4_register_bootstrap_witness :
    register_user (fun _ => "HH") "A" "x" "Core Head" dirOneCore "t" =
      (false, "User already exists.", dirOneCore) ∧
    ((register_user (fun _ => "HH") "B" "pw" "Dev" emptyDirectory "t").1 = true ∧
      (register_user (fun _ => "HH") "B" "pw" "Dev" emptyDirectory "t").2.2.rows =
        [⟨"B", "Dev", "HH", "Active", "System", "t", "", ""⟩]) ∧
    ((register_user (fun _ => "HH") "B" "pw" "Dev" dirOneCore "t").1 = true ∧
      (register_user (fun _ => "HH") "B" "pw" "Dev" dirOneCore "t").2.2.rows =
        dirOneCore.rows ++ [⟨"B", "Dev", "HH", "Pending", "", "t", "", ""⟩]) ∧
    ((register_user (fun _ => "HH") "B" "pw" "Junior Head" dirOneCore "t").1 = true ∧
      (register_user (fun _ => "HH") "B" "pw" "Junior Head" dirOneCore "t").2.2.rows =
        dirOneCore.rows ++ [⟨"B", "Junior Head", "HH", "Pending", "", "t", "", ""⟩]) :=
  ⟨(c4_register_bootstrap (fun _ => "HH") "A" "x" "Core Head" "t" dirOneCore).1
      (by decide) (by decide),
   (c4_register_bootstrap (fun _ => "HH") "B" "pw" "Dev" "t" emptyDirectory).2.1
      rfl rfl,
   (c4_register_bootstrap (fun _ => "HH") "B" "pw" "Dev" "t" dirOneCore).2.2.1
      rfl (by decide) (by decide),
   (c4_register_bootstrap (fun _ => "HH") "B" "pw" "Junior Head" "t" dirOneCore).2.2.2
      (by decide) (by decide)⟩

/-- Claim C5: `approve_user` overwrites the target's Status to "Active" and
ApprovedBy to the approver, whatever the target's current status; for a Dev
target this happens only when the approver is the bootstrap Dev (first row
with Role "Dev" and ApprovedBy "System"), any other case failing with the
directory untouched; for non-Dev targets any approver name is accepted. -/
theorem c5_approve_policy :
    ∀ (d : Directory) (n a : String) (i : Nat) (m : Member),
      find_index (fun x => x.name == n) d.rows = some i →
      d.rows.get? i = some m →
      (m.role ≠ "Dev" →
        (approve_user n d a).1 = true ∧
        (∀ j, j ≠ i → (approve_user n d a).2.2.rows.get? j = d.rows.get? j) ∧
        (approve_user n d a).2.2.rows.get? i =
          some { m with status := "Active", approvedBy := a }) ∧
      (m.role = "Dev" →
        (∀ parent_dev,
          d.rows.find? (fun x => x.role == "Dev" && x.approvedBy == "System") =
            some parent_dev →
          (a = parent_dev.name →
            (approve_user n d a).1 = true ∧
            (∀ j, j ≠ i →
              (approve_user n d a).2.2.rows.get? j = d.rows.get? j) ∧
            (approve_user n d a).2.2.rows.get? i =
              some { m with status := "Active", approvedBy := a }) ∧
          (a ≠ parent_dev.name →
            approve_user n d a =
              (false, "Only the parent Dev can approve new Devs.", d))) ∧
        (d.rows.find? (fun x => x.role == "Dev" && x.approvedBy == "System") =
            none →
          approve_user n d a =
            (false, "Only the parent Dev can approve new Devs.", d))) := by
  intro d n a i m hidx hget
  have hm : (d.rows.get? i).getD default = m := by rw [hget]; rfl
  constructor
  · intro hnd
    have happ : approve_user n d a =
        (true, "User " ++ n ++ " approved successfully!",
         { d with rows := updateAt d.rows i (fun mm =>
             { mm with status := "Active", approvedBy := a }) }) := by
      simp only [approve_user, hidx, hm]
      rw [if_neg hnd]
    rw [happ]
    refine ⟨rfl, ?_, ?_⟩
    · intro j hj
      exact updateAt_get?_ne d.rows i _ j hj
    · rw [updateAt_get?_eq, hget]
      rfl
  · intro hd
    refine ⟨?_, ?_⟩
    · intro parent_dev hpd
      constructor
      · intro hap
        have happ : approve_user n d a =
            (true, "User " ++ n ++ " approved successfully!",
             { d with rows := updateAt d.rows i (fun mm =>
                 { mm with status := "Active", approvedBy := a }) }) := by
          simp only [approve_user, hidx, hm, hpd]
          rw [if_pos hd, if_pos hap]
        rw [happ]
        refine ⟨rfl, ?_, ?_⟩
        · intro j hj
          exact updateAt_get?_ne d.rows i _ j hj
        · rw [updateAt_get?_eq, hget]
          rfl
      · intro hap
        simp only [approve_user, hidx, hm, hpd]
        rw [if_pos hd, if_neg hap]
    · intro hnone
      simp only [approve_user, hidx, hm, hnone]
      rw [if_pos hd]

/-- Two rows: the bootstrap Dev "A" and a Pending Core Head "B". -/
def dirDevAndPending : Directory :=
  { rows := [⟨"A", "Dev", "pw", "Active", "System", "t0", "", ""⟩,
             ⟨"B", "Core Head", "pw", "Pending", "", "t1", "", ""⟩],
    hasPassword := true, hasStatus := true, hasRole := true,
    hasDomain := false, hasReportsTo := false }

/-- Two rows: the bootstrap Dev "A" and a second, Pending Dev "C". -/
def dirTwoDevs : Directory :=
  { rows := [⟨"A", "Dev", "pw", "Active", "System", "t0", "", ""⟩,
             ⟨"C", "Dev", "pw", "Pending", "", "t1", "", ""⟩],
    hasPassword := true, hasStatus := true, hasRole := true,
    hasDomain := false, hasReportsTo := false }

/-- A single Pending Dev and no bootstrap Dev at all. -/
def dirLoneDevPending : Directory :=
  { rows := [⟨"C", "Dev", "pw", "Pending", "", "t0", "", ""⟩],
    hasPassword := true, hasStatus := true, hasRole := true,
    hasDomain := false, hasReportsTo := false }

theorem c5_approve_policy_witness :
    ((approve_user "B" dirDevAndPending "A").1 = true ∧
      (approve_user "B" dirDevAndPending "A").2.2.rows.get? 0 =
        dirDevAndPending.rows.get? 0 ∧
      (approve_user "B" dirDevAndPending "A").2.2.rows.get? 1 =
        some ⟨"B", "Core Head", "pw", "Active", "A", "t1", "", ""⟩) ∧
    ((approve_user "C" dirTwoDevs "A").1 = true ∧
      (approve_user "C" dirTwoDevs "A").2.2.rows.get? 1 =
        some ⟨"C", "Dev", "pw", "Active", "A", "t1", "", ""⟩) ∧
    approve_user "C" dirTwoDevs "C" =
      (false, "Only the parent Dev can approve new Devs.", dirTwoDevs) ∧
    approve_user "C" dirLoneDevPending "X" =
      (false, "Only the parent Dev can approve new Devs.", dirLoneDevPending) := by
  have h1 := (c5_approve_policy dirDevAndPending "B" "A" 1
    ⟨"B", "Core Head", "pw", "Pending", "", "t1", "", ""⟩
    (by decide) rfl).1 (by decide)
  have h2 := (((c5_approve_policy dirTwoDevs "C" "A" 1
    ⟨"C", "Dev", "pw", "Pending", "", "t1", "", ""⟩
    (by decide) rfl).2 rfl).1
    ⟨"A", "Dev", "pw", "Active", "System", "t0", "", ""⟩ (by decide)).1 rfl
  have h3 := (((c5_approve_policy dirTwoDevs "C" "C" 1
    ⟨"C", "Dev", "pw", "Pending", "", "t1", "", ""⟩
    (by decide) rfl).2 rfl).1
    ⟨"A", "Dev", "pw", "Active", "System", "t0", "", ""⟩ (by decide)).2 (by decide)
  have h4 := ((c5_approve_policy dirLoneDevPending "C" "X" 0
    ⟨"C", "Dev", "pw", "Pending", "", "t0", "", ""⟩
    (by decide) rfl).2 rfl).2 (by decide)
  exact ⟨⟨h1.1, h1.2.1 0 (by decide), h1.2.2⟩, ⟨h2.1, h2.2.2⟩, h3, h4⟩

/-- Claim C6, counterexample: `delete_user` does not fail when the name is
absent — deleting the non-existent "Ghost" still reports success, because the
source filters rows without any existence check. -/
theorem c6_lifecycle_cex :
    dirOneCore.rows.all (fun m => !(m.name == "Ghost")) = true ∧
    (delete_user "Ghost" dirOneCore).1 = true :=
  ⟨rfl, rfl⟩

/-- Claim C6 (amended): `suspend_user`, `reactivate_user` and
`update_user_role` fail and leave the directory unchanged when the name does
not exist, and on success overwrite only the targeted field of the first
matching row; `delete_user` never fails: it reports success and keeps exactly
the rows whose Name differs from the target (a no-op when the name is
absent). -/
theorem c6_lifecycle_mutation :
    ∀ (d : Directory) (n r : String),
      ((∀ m ∈ d.rows, m.name ≠ n) →
        (suspend_user n d).1 = false ∧ (suspend_user n d).2.2 = d ∧
        (reactivate_user n d).1 = false ∧ (reactivate_user n d).2.2 = d ∧
        (update_user_role n r d).1 = false ∧ (update_user_role n r d).2.2 = d) ∧
      (∀ i m, find_index (fun x => x.name == n) d.rows = some i →
        d.rows.get? i = some m →
        ((suspend_user n d).1 = true ∧
         (∀ j, j ≠ i → (suspend_user n d).2.2.rows.get? j = d.rows.get? j) ∧
         (suspend_user n d).2.2.rows.get? i =
           some { m with status := "Suspended" }) ∧
        ((reactivate_user n d).1 = true ∧
         (∀ j, j ≠ i → (reactivate_user n d).2.2.rows.get? j = d.rows.get? j) ∧
         (reactivate_user n d).2.2.rows.get? i =
           some { m with status := "Active" }) ∧
        ((update_user_role n r d).1 = true ∧
         (∀ j, j ≠ i →
           (update_user_role n r d).2.2.rows.get? j = d.rows.get? j) ∧
         (update_user_role n r d).2.2.rows.get? i = some { m with role := r })) ∧
      ((delete_user n d).1 = true ∧
        (∀ m, m ∈ (delete_user n d).2.2.rows ↔ m ∈ d.rows ∧ m.name ≠ n)) := by
  intro d n r
  refine ⟨?_, ?_, ?_⟩
  · intro h
    have hidx : find_index (fun x => x.name == n) d.rows = none :=
      (find_index_eq_none _ _).mpr (fun m hm => by simpa using h m hm)
    refine ⟨?_, ?_, ?_, ?_, ?_, ?_⟩ <;>
      simp [suspend_user, reactivate_user, update_user_role, hidx]
  · intro i m hidx hget
    refine ⟨?_, ?_, ?_⟩ <;>
      · refine ⟨?_, ?_, ?_⟩
        · simp [suspend_user, reactivate_user, update_user_role, hidx]
        · intro j hj
          simp only [suspend_user, reactivate_user, update_user_role, hidx]
          exact updateAt_get?_ne d.rows i _ j hj
        · simp only [suspend_user, reactivate_user, update_user_role, hidx]
          rw [updateAt_get?_eq, hget]
          rfl
  · refine ⟨rfl, ?_⟩
    intro m
    simp [delete_user, List.mem_filter]

theorem c6_lifecycle_mutation_witness :
    ((suspend_user "Ghost" dirOneCore).1 = false ∧
      (suspend_user "Ghost" dirOneCore).2.2 = dirOneCore) ∧
    ((suspend_user "A" dirOneCore).1 = true ∧
      (suspend_user "A" dirOneCore).2.2.rows.get? 0 =
        some ⟨"A", "Core Head", "pw", "Suspended", "D", "t0", "", ""⟩) ∧
    ((reactivate_user "A" dirOneCore).2.2.rows.get? 0 =
      some ⟨"A", "Core Head", "pw", "Active", "D", "t0", "", ""⟩) ∧
    ((update_user_role "A" "Junior Head" dirOneCore).2.2.rows.get? 0 =
      some ⟨"A", "Junior Head", "pw", "Active", "D", "t0", "", ""⟩) ∧
    ((delete_user "A" dirOneCore).1 = true ∧
      (⟨"A", "Core Head", "pw", "Active", "D", "t0", "", ""⟩ ∈
          (delete_user "A" dirOneCore).2.2.rows ↔
        ⟨"A", "Core Head", "pw", "Active", "D", "t0", "", ""⟩ ∈
            dirOneCore.rows ∧
          Member.name ⟨"A", "Core Head", "pw", "Active", "D", "t0", "", ""⟩ ≠
            "A")) := by
  have hmiss := (c6_lifecycle_mutation dirOneCore "Ghost" "Junior Head").1
    (by decide)
  have hhit := (c6_lifecycle_mutation dirOneCore "A" "Junior Head").2.1 0
    ⟨"A", "Core Head", "pw", "Active", "D", "t0", "", ""⟩ (by decide) rfl
  have hdel := (c6_lifecycle_mutation dirOneCore "A" "Junior Head").2.2
  exact ⟨⟨hmiss.1, hmiss.2.1⟩, ⟨hhit.1.1, hhit.1.2.2⟩, hhit.2.1.2.2,
    hhit.2.2.2.2, hdel.1,
    hdel.2 ⟨"A", "Core Head", "pw", "Active", "D", "t0", "", ""⟩⟩

theorem generate_loop_some :
    ∀ (fuel : Nat) (s : Nat → Nat) (existing_ids : List Nat) (id1 : Nat),
      generate_loop existing_ids s fuel = some id1 →
      100000 ≤ id1 ∧ id1 ≤ 999999 ∧ id1 ∉ existing_ids := by
  intro fuel
  induction fuel with
  | zero => intro s ids id1 h; simp [generate_loop] at h
  | succ f ih =>
    intro s ids id1 h
    simp only [generate_loop] at h
    by_cases hc : ids.contains (100000 + s 0 % 900000) = true
    · rw [if_pos hc] at h
      exact ih _ ids id1 h
    · rw [if_neg hc] at h
      injection h with h
      subst h
      refine ⟨Nat.le_add_right _ _, ?_, ?_⟩
      · have := Nat.mod_lt (s 0) (show 0 < 900000 by norm_num)
        omega
      · intro hmem
        exact hc (by simpa using hmem)

theorem generate_unique_taskid_some (s : Nat → Nat) (fuel : Nat)
    (existing_ids : List Nat) (id1 : Nat)
    (h : generate_unique_taskid s fuel existing_ids = some id1) :
    100000 ≤ id1 ∧ id1 ≤ 999999 ∧ id1 ∉ existing_ids := by
  unfold generate_unique_taskid at h
  by_cases he : existing_ids.isEmpty = true
  · rw [if_pos he] at h
    injection h with h
    subst h
    refine ⟨Nat.le_add_right _ _, ?_, ?_⟩
    · have := Nat.mod_lt (s 0) (show 0 < 900000 by norm_num)
      omega
    · rw [List.isEmpty_iff.mp he]
      exact List.not_mem_nil _
  · rw [if_neg he] at h
    exact generate_loop_some fuel s existing_ids id1 h

theorem generate_accumulate_fresh :
    ∀ (streams : List (Nat → Nat)) (fuel : Nat) (existing_ids : List Nat),
      (generate_accumulate fuel streams existing_ids).Nodup ∧
      ∀ id1 ∈ generate_accumulate fuel streams existing_ids,
        id1 ∉ existing_ids := by
  intro streams
  induction streams with
  | nil => intro fuel ids; simp [generate_accumulate]
  | cons s rest ih =>
    intro fuel ids
    simp only [generate_accumulate]
    cases hg : generate_unique_taskid s fuel ids with
    | none => simp
    | some id1 =>
      obtain ⟨_, _, h3⟩ := generate_unique_taskid_some s fuel ids id1 hg
      obtain ⟨ihn, ihf⟩ := ih fuel (id1 :: ids)
      constructor
      · exact List.nodup_cons.mpr
          ⟨fun hmem => (ihf id1 hmem) (List.mem_cons_self id1 ids), ihn⟩
      · intro x hx
        rcases List.mem_cons.mp hx with hx1 | hx1
        · subst hx1; exact h3
        · exact fun hmem => (ihf x hx1) (List.mem_cons_of_mem id1 hmem)

/-- Claim C7: every ID `generate_unique_taskid` returns lies in
[100000, 999999] and avoids the existing-ID set; accumulating each returned ID
before the next call yields pairwise-distinct IDs; and whenever some value of
the range is still free, a draw exists that makes the call return. -/
theorem c7_taskid_unique :
    (∀ (s : Nat → Nat) (fuel : Nat) (existing_ids : List Nat) (id1 : Nat),
        generate_unique_taskid s fuel existing_ids = some id1 →
        100000 ≤ id1 ∧ id1 ≤ 999999 ∧ id1 ∉ existing_ids) ∧
    (∀ (fuel : Nat) (streams : List (Nat → Nat)) (existing_ids : List Nat),
        (generate_accumulate fuel streams existing_ids).Nodup ∧
        ∀ id1 ∈ generate_accumulate fuel streams existing_ids,
          id1 ∉ existing_ids) ∧
    (∀ (existing_ids : List Nat) (v : Nat),
        100000 ≤ v → v ≤ 999999 → v ∉ existing_ids →
        generate_unique_taskid (fun _ => v - 100000) 1 existing_ids = some v) := by
  refine ⟨generate_unique_taskid_some,
    fun fuel streams ids => generate_accumulate_fresh streams fuel ids, ?_⟩
  intro ids v h1 h2 h3
  have hv : 100000 + (v - 100000) % 900000 = v := by
    rw [Nat.mod_eq_of_lt (by omega : v - 100000 < 900000)]
    omega
  unfold generate_unique_taskid
  by_cases he : ids.isEmpty = true
  · rw [if_pos he]
    show some (100000 + (v - 100000) % 900000) = some v
    rw [hv]
  · rw [if_neg he]
    simp only [generate_loop]
    have hc : ids.contains (100000 + (v - 100000) % 900000) = false := by
      rw [hv]
      simpa using h3
    show (if ids.contains (100000 + (v - 100000) % 900000) = true then
        generate_loop ids (fun k => (fun _ : Nat => v - 100000) (k + 1)) 0
      else some (100000 + (v - 100000) % 900000)) = some v
    rw [hc]
    simp [hv]

theorem c7_taskid_unique_witness :
    (100000 ≤ 100005 ∧ 100005 ≤ 999999 ∧ (100005 : Nat) ∉ [100000]) ∧
    ((generate_accumulate 2 [fun _ => 0, fun _ => 0] []).Nodup ∧
      ∀ id1 ∈ generate_accumulate 2 [fun _ => 0, fun _ => 0] ([] : List Nat),
        id1 ∉ ([] : List Nat)) ∧
    generate_unique_taskid (fun _ => 100123 - 100000) 1 [100000] =
      some 100123 :=
  ⟨c7_taskid_unique.1 (fun _ => 5) 1 [100000] 100005 rfl,
   c7_taskid_unique.2.1 2 [fun _ => 0, fun _ => 0] [],
   c7_taskid_unique.2.2 [100000] 100123 (by norm_num) (by norm_num)
     (by decide)⟩

end ClubTool
